import Mathlib

/-!
Shallow embedding of the terminal-embedding subsystem of the zeropad editor
(src/zeropad/terminal_panel.py, plus main.set_cwd from src/zeropad/main.py).

The Python class `TerminalPanel` is modelled as a pure state machine:
  * `PanelState` holds the instance fields of the class;
  * `Obs` holds the responses of the external world (tmux queries, process
    liveness, container geometry) observed during one callback;
  * `Env` holds the ambient environment (binary availability, path
    resolution and directory existence on the filesystem);
  * each method becomes a function `PanelState → ... → PanelState × List Cmd`
    where `Cmd` records the externally visible commands issued
    (tmux control commands, X resize requests, process spawns, UI notices).
The five consecutive `send-keys` subprocess calls of `_tmux_cd_to`
(clear line, clear history, literal cd text, Enter, clear screen) form one
directory-injection sequence and are recorded as a single `Cmd.cdInject`.
Floating point arithmetic (cell-size smoothing, `time.time()` stamps) is
modelled with exact fractions `Frac` over ℤ (numerator/denominator, kept
with positive denominators by the operations used); Python `round`
(round-half-to-even) is modelled by `Frac.pyRound`.
-/

namespace Zeropad

/-- Exact fraction `num/den`. All fractions built by the model have a
positive denominator. -/
structure Frac where
  num : ℤ
  den : ℤ
  deriving DecidableEq, Repr

namespace Frac

/-- Embed an integer. -/
def ofInt (n : ℤ) : Frac := ⟨n, 1⟩

/-- The fraction 1. -/
def one : Frac := ⟨1, 1⟩

/-- Addition. -/
def add (a b : Frac) : Frac := ⟨a.num * b.den + b.num * a.den, a.den * b.den⟩

/-- Subtraction. -/
def sub (a b : Frac) : Frac := ⟨a.num * b.den - b.num * a.den, a.den * b.den⟩

/-- Multiplication. -/
def mul (a b : Frac) : Frac := ⟨a.num * b.num, a.den * b.den⟩

/-- Division, normalising the sign so the denominator stays positive
(division by zero, which the modelled code never performs, yields 0). -/
def div (a b : Frac) : Frac :=
  let n := a.num * b.den
  let d := a.den * b.num
  if d < 0 then ⟨-n, -d⟩ else if d = 0 then ⟨0, 1⟩ else ⟨n, d⟩

/-- Strict order (by cross-multiplication; faithful for the positive
denominators the model maintains). -/
def lt (a b : Frac) : Prop := a.num * b.den < b.num * a.den

instance (a b : Frac) : Decidable (Frac.lt a b) :=
  inferInstanceAs (Decidable (_ < _))

/-- Non-strict order. -/
def le (a b : Frac) : Prop := a.num * b.den ≤ b.num * a.den

instance (a b : Frac) : Decidable (Frac.le a b) :=
  inferInstanceAs (Decidable (_ ≤ _))

/-- Python `max(a, b)` on fractions. -/
def fmax (a b : Frac) : Frac := if Frac.lt a b then b else a

/-- Python `round` (round half to even) of a fraction with positive
denominator. -/
def pyRound (f : Frac) : ℤ :=
  let fl := Int.fdiv f.num f.den
  let rnum := f.num - fl * f.den
  if 2 * rnum < f.den then fl
  else if f.den < 2 * rnum then fl + 1
  else if fl % 2 = 0 then fl else fl + 1

/-- The fraction represents a strictly positive value (with its
denominator in the positive normal form the model maintains). -/
def Pos (f : Frac) : Prop := 0 < f.num ∧ 0 < f.den

end Frac

/-- External commands and UI effects issued by the panel. -/
inductive Cmd where
  /-- the five send-keys commands of `_tmux_cd_to` issuing `cd -- <path>` -/
  | cdInject (path : String)
  /-- `tmux refresh-client -C cols,rows` from `_tmux_refresh_client` -/
  | refreshClient (cols rows : ℤ)
  /-- direct Xlib configure of the embedded xterm window (`_resize_xterm_child`) -/
  | xResize (w h : ℤ)
  /-- `tmux send-keys C-<letter>` from `_tmux_send_ctrl` -/
  | sendCtrl (letter : String)
  /-- `tmux kill-server` -/
  | killServer
  /-- `tmux new-session -ds` from `_restart_tmux_session` -/
  | newSessionDetached
  /-- `subprocess.Popen` of the xterm+tmux command line -/
  | spawnXterm
  /-- the three `set-option` commands of `_tmux_quiet_bell` -/
  | quietBell
  /-- `_show_missing_tools`: label listing the absent binaries -/
  | notifyMissing (names : List String)
  /-- `_show_error` label -/
  | showError
  deriving DecidableEq, Repr

/-- Callbacks scheduled with Tk `after`. -/
inductive Cb where
  | maybeSpawn
  | primeReady
  | pollCwd
  | periodicReconcile
  | discoverXchild
  deriving DecidableEq, Repr

/-- Ambient environment: binary availability (`shutil.which`) and the
filesystem behaviour used by path resolution. -/
structure Env where
  xterm_avail : Bool
  tmux_avail : Bool
  /-- `pathlib.Path(p).resolve()` -/
  resolve : String → String
  /-- `pathlib.Path(p).expanduser()` -/
  expanduser : String → String
  /-- `p.exists() and p.is_dir()` -/
  exists_dir : String → Bool

/-- Responses of the external world observed during one callback. -/
structure Obs where
  /-- `tmux has-session` succeeds -/
  has_session : Bool
  /-- returncode of `new-session -ds` in `_restart_tmux_session` is 0 -/
  restart_ok : Bool
  /-- `self._xterm_proc.poll() is not None` (process has exited) -/
  poll_dead : Bool
  /-- `#{pane_current_path}` (none for empty output) -/
  pane_cwd : Option String
  /-- `#{pane_width} #{pane_height}` -/
  pane_size : Option (ℤ × ℤ)
  /-- `#{client_width} #{client_height}` -/
  client_size : Option (ℤ × ℤ)
  /-- first line of `list-clients` output -/
  client_tty : Option String
  /-- `self._term_container.winfo_ismapped()` -/
  mapped : Bool
  /-- `subprocess.Popen` of the xterm command does not raise -/
  spawn_ok : Bool
  /-- the Xlib display is open and the child window is known -/
  xlib_ok : Bool
  /-- `winfo_width()` of the container -/
  cont_w : ℤ
  /-- `winfo_height()` of the container -/
  cont_h : ℤ
  deriving DecidableEq, Repr

/-- Instance fields of `TerminalPanel` (with `self.cwd` of the main app). -/
structure PanelState where
  xterm_started : Bool
  /-- `self._xterm_proc is not None` -/
  proc_exists : Bool
  tmux_ready : Bool
  terminal_active : Bool
  last_tmux_cwd : Option String
  pending_cd : Option String
  /-- `self.cwd` of the main application -/
  host_cwd : Option String
  cell_w : Frac
  cell_h : Frac
  client_tty : Option String
  last_respawn : Frac
  /-- `self._x_dpy is not None` -/
  x_dpy : Bool
  /-- `self._x_child is not None` -/
  x_child : Bool
  deriving DecidableEq, Repr

/-- `RESPAWN_COOLDOWN = 1.0` seconds. -/
def RESPAWN_COOLDOWN : Frac := Frac.one

/-- State after `init_terminal_panel` (lines 49-70): nothing started, cell
estimate seeded at `(8.0, 16.0)`, respawn stamp 0. `cwd0` is the logical
cwd the main application holds at that point. -/
def init_terminal_panel (cwd0 : Option String) : PanelState :=
  { xterm_started := false
    proc_exists := false
    tmux_ready := false
    terminal_active := false
    last_tmux_cwd := none
    pending_cd := none
    host_cwd := cwd0
    cell_w := Frac.ofInt 8
    cell_h := Frac.ofInt 16
    client_tty := none
    last_respawn := Frac.ofInt 0
    x_dpy := false
    x_child := false }

/-- Python `a or d` for an optional int `a` (both `None` and `0` are falsy). -/
def pyOrInt (a : Option ℤ) (d : ℤ) : ℤ :=
  match a with
  | some v => if v = 0 then d else v
  | none => d

/-- `_tmux_has_session`: false when the tmux binary is absent. -/
def tmux_has_session (e : Env) (o : Obs) : Bool :=
  e.tmux_avail && o.has_session

/-- `_tmux_first_client_tty`: none when the tmux binary is absent. -/
def tmux_first_client_tty (e : Env) (o : Obs) : Option String :=
  if e.tmux_avail then o.client_tty else none

/-- `_tmux_get_cwd`: none when the tmux binary is absent. -/
def tmux_get_cwd (e : Env) (o : Obs) : Option String :=
  if e.tmux_avail then o.pane_cwd else none

/-- `_tmux_get_client_size`: `(None, None)` when the tmux binary is absent
or the output is unparsable, modelled as `none`. -/
def tmux_get_client_size (e : Env) (o : Obs) : Option (ℤ × ℤ) :=
  if e.tmux_avail then o.client_size else none

/-- `_tmux_get_pane_size`. -/
def tmux_get_pane_size (e : Env) (o : Obs) : Option (ℤ × ℤ) :=
  if e.tmux_avail then o.pane_size else none

/-- `_tmux_quiet_bell`: the three set-option commands. -/
def tmux_quiet_bell (e : Env) : List Cmd :=
  if e.tmux_avail then [Cmd.quietBell] else []

/-- `_tmux_refresh_client cols rows`. -/
def tmux_refresh_client (e : Env) (cols rows : ℤ) : List Cmd :=
  if e.tmux_avail then [Cmd.refreshClient cols rows] else []

/-- `_tmux_cd_to(path)` (lines 486-504): when tmux is available, issues the
five-command directory-injection sequence and records
`_last_tmux_cwd = Path(path).resolve()`. -/
def tmux_cd_to (e : Env) (s : PanelState) (path : String) :
    PanelState × List Cmd :=
  if e.tmux_avail then
    ({ s with last_tmux_cwd := some (e.resolve path) }, [Cmd.cdInject path])
  else (s, [])

/-- `terminal_set_cwd(path)` (lines 413-418): resolve the path; if the
session is not ready, store it as the pending cd, otherwise inject it. -/
def terminal_set_cwd (e : Env) (s : PanelState) (path : String) :
    PanelState × List Cmd :=
  let target := e.resolve path
  if !s.tmux_ready then
    ({ s with pending_cd := some target }, [])
  else
    tmux_cd_to e s target

/-- `set_cwd` of the main application (src/zeropad/main.py lines 107-117):
resolve and validate, then update the logical cwd. It issues no terminal
commands and in particular never calls `terminal_set_cwd`.
(`_poll_tmux_cwd` calls it as `set_cwd(p, origin="terminal")`, which raises
`TypeError` since `set_cwd` takes no `origin`, and falls back to
`set_cwd(p)`; both ways this function is what runs.) -/
def set_cwd (e : Env) (s : PanelState) (newPath : String) : PanelState :=
  let p := e.resolve (e.expanduser newPath)
  if e.exists_dir p then { s with host_cwd := some p } else s

/-- Python `str.lower()` (ASCII case mapping per character; kernel
computable, unlike `String.toLower`). -/
def pyLower (sTxt : String) : String := String.mk (sTxt.data.map Char.toLower)

/-- `_tmux_send_ctrl(letter)` (lines 178-185): dropped when the session is
not ready or tmux is absent. -/
def tmux_send_ctrl (e : Env) (s : PanelState) (letter : String) : List Cmd :=
  if !s.tmux_ready then []
  else if e.tmux_avail then [Cmd.sendCtrl (pyLower letter)] else []

/-- Result of a Tk event handler: `"break"` (stop propagation) or fall
through to the remaining bindings. -/
inductive InterceptResult where
  | breakEvent
  | fallthrough
  deriving DecidableEq, Repr

/-- `_intercept_ctrl(event)` (lines 153-164): when the terminal is not
active, fall through; otherwise, for keysym `d`, forward Ctrl+D to tmux
and consume the event. -/
def intercept_ctrl (e : Env) (s : PanelState) (keysym : Option String) :
    InterceptResult × List Cmd :=
  if !s.terminal_active then (InterceptResult.fallthrough, [])
  else
    let ks := pyLower (keysym.getD "")
    if ks = "d" then (InterceptResult.breakEvent, tmux_send_ctrl e s "d")
    else (InterceptResult.fallthrough, [])

/-- List of absent required binaries, in the order `_show_missing_tools`
reports them. -/
def missingNames (e : Env) : List String :=
  (if e.xterm_avail then [] else ["xterm"]) ++
    (if e.tmux_avail then [] else ["tmux"])

/-- `_resize_xterm_child(w_px, h_px)` (lines 396-409): a direct X configure
request when the display is open and the child window is known
(`o.xlib_ok` collapses `_x_dpy`/`_discover_xchild`). -/
def resize_xterm_child (o : Obs) (w h : ℤ) : List Cmd :=
  if o.xlib_ok then [Cmd.xResize (max 1 w) (max 1 h)] else []

/-- Smoothing constant `alpha = 0.35` of `_immediate_resize`. -/
def alpha : Frac := ⟨35, 100⟩

/-- Lines 355-364 of `_immediate_resize`: refine the smoothed cell-size
estimate from the pane/client grid reported by tmux (falling back 80×24),
with `new = (1-alpha)*old + alpha*(container_px / ref_grid)`. -/
def updateCells (e : Env) (o : Obs) (w h : ℤ) (s : PanelState) : PanelState :=
  let paneC := (tmux_get_pane_size e o).map Prod.fst
  let paneR := (tmux_get_pane_size e o).map Prod.snd
  let curC := (tmux_get_client_size e o).map Prod.fst
  let curR := (tmux_get_client_size e o).map Prod.snd
  let refCols := pyOrInt paneC (pyOrInt curC 80)
  let refRows := pyOrInt paneR (pyOrInt curR 24)
  if refCols > 0 ∧ refRows > 0 then
    let estW := Frac.div (Frac.ofInt w) (Frac.ofInt (max refCols 1))
    let estH := Frac.div (Frac.ofInt h) (Frac.ofInt (max refRows 1))
    { s with
      cell_w := Frac.add (Frac.mul (Frac.sub Frac.one alpha) s.cell_w)
        (Frac.mul alpha estW)
      cell_h := Frac.add (Frac.mul (Frac.sub Frac.one alpha) s.cell_h)
        (Frac.mul alpha estH) }
  else s

/-- Line 365 of `_immediate_resize`: target columns, clamped to [20,400]. -/
def want_cols (w : ℤ) (cw : Frac) : ℤ :=
  max 20 (min 400 (Frac.pyRound (Frac.div (Frac.ofInt w) (Frac.fmax cw Frac.one))))

/-- Line 366 of `_immediate_resize`: target rows, clamped to [5,200]. -/
def want_rows (h : ℤ) (ch : Frac) : ℤ :=
  max 5 (min 200 (Frac.pyRound (Frac.div (Frac.ofInt h) (Frac.fmax ch Frac.one))))

/-- The target grid a reconciliation pass computes for container `(w,h)`
in state `s`: the cell estimate is refined first, then divided out. -/
def reconcileTarget (e : Env) (o : Obs) (w h : ℤ) (s : PanelState) : ℤ × ℤ :=
  let s' := updateCells e o w h s
  (want_cols w s'.cell_w, want_rows h s'.cell_h)

/-- `_maybe_spawn_xterm` (lines 189-242). Already started: just reschedule
the cwd poll. Container not mapped: retry on a short timer. A required
binary absent: show the missing-tools notice and stop (nothing is
rescheduled). Otherwise spawn xterm+tmux and schedule the readiness
priming callback. -/
def maybe_spawn_xterm (e : Env) (o : Obs) (s : PanelState) :
    PanelState × List Cmd × List Cb :=
  if s.xterm_started then (s, [], [Cb.pollCwd])
  else if !o.mapped then (s, [], [Cb.maybeSpawn])
  else if !e.xterm_avail || !e.tmux_avail then
    (s, [Cmd.notifyMissing (missingNames e)], [])
  else if !o.spawn_ok then (s, [Cmd.spawnXterm, Cmd.showError], [])
  else
    let s := { s with proc_exists := true, xterm_started := true }
    if !o.xlib_ok then (s, [Cmd.spawnXterm, Cmd.showError], [])
    else
      ({ s with x_dpy := true }, [Cmd.spawnXterm], [Cb.primeReady])

/-- `_mark_tmux_ready_and_prime` (lines 244-253): confirm readiness; on
readiness quieten the bell, resolve the client tty and apply a pending cd
exactly once; always reschedule the cwd poll and the child discovery. -/
def mark_tmux_ready_and_prime (e : Env) (o : Obs) (s : PanelState) :
    PanelState × List Cmd × List Cb :=
  let s := { s with tmux_ready := tmux_has_session e o }
  if s.tmux_ready then
    let bell := tmux_quiet_bell e
    let s := { s with client_tty := tmux_first_client_tty e o }
    match s.pending_cd with
    | some p =>
        let r := tmux_cd_to e s p
        ({ r.1 with pending_cd := none }, bell ++ r.2,
          [Cb.pollCwd, Cb.discoverXchild])
    | none => (s, bell, [Cb.pollCwd, Cb.discoverXchild])
  else (s, [], [Cb.pollCwd, Cb.discoverXchild])

/-- `_restart_tmux_session` (lines 294-308): recreate a detached session on
the private socket; on success mark ready, quieten the bell, resolve the
client tty and cd to the host logical cwd (not the pending cd). -/
def restart_tmux_session (e : Env) (o : Obs) (s : PanelState) :
    PanelState × List Cmd :=
  if !e.tmux_avail then (s, [])
  else if o.restart_ok then
    let s := { s with tmux_ready := true }
    let bell := tmux_quiet_bell e
    let s := { s with client_tty := tmux_first_client_tty e o }
    match s.host_cwd with
    | some c =>
        let r := tmux_cd_to e s c
        (r.1, Cmd.newSessionDetached :: (bell ++ r.2))
    | none => (s, Cmd.newSessionDetached :: bell)
  else (s, [Cmd.newSessionDetached])

/-- `_respawn_xterm_and_tmux` (lines 269-292): kill the server and the
process group, clear the handles and re-run `_maybe_spawn_xterm`. -/
def respawn_xterm_and_tmux (e : Env) (o : Obs) (s : PanelState) :
    PanelState × List Cmd × List Cb :=
  let kill := if e.tmux_avail then [Cmd.killServer] else []
  let s := { s with
    proc_exists := false
    xterm_started := false
    tmux_ready := false
    client_tty := none
    x_child := false }
  let r := maybe_spawn_xterm e o s
  (r.1, kill ++ r.2.1, r.2.2)

/-- `_ensure_alive` (lines 257-267): if the xterm process has died, respawn
it (cooldown-gated) and return; otherwise if the session is gone, recreate
it (same cooldown gate). -/
def ensure_alive (e : Env) (o : Obs) (now : Frac) (s : PanelState) :
    PanelState × List Cmd × List Cb :=
  if s.proc_exists && o.poll_dead then
    if Frac.le RESPAWN_COOLDOWN (Frac.sub now s.last_respawn) then
      respawn_xterm_and_tmux e o { s with last_respawn := now }
    else (s, [], [])
  else if !(tmux_has_session e o) then
    if Frac.le RESPAWN_COOLDOWN (Frac.sub now s.last_respawn) then
      let r := restart_tmux_session e o { s with last_respawn := now }
      (r.1, r.2, [])
    else (s, [], [])
  else (s, [], [])

/-- `_poll_tmux_cwd` (lines 312-329): keep-alive, then confirm readiness if
needed, then diff the pane cwd against the last known one and push a
changed value into the host via `set_cwd` (origin: session). Always
reschedules itself. -/
def poll_tmux_cwd (e : Env) (o : Obs) (now : Frac) (s : PanelState) :
    PanelState × List Cmd × List Cb :=
  let r := ensure_alive e o now s
  let s := r.1
  let s := if !s.tmux_ready then { s with tmux_ready := tmux_has_session e o } else s
  let s :=
    if s.tmux_ready then
      match tmux_get_cwd e o with
      | some pc =>
          let p := e.resolve pc
          if s.last_tmux_cwd = none ∨ some p ≠ s.last_tmux_cwd then
            let s := { s with last_tmux_cwd := some p }
            if s.host_cwd = none ∨ (∀ h ∈ s.host_cwd, p ≠ e.resolve h) then
              set_cwd e s p
            else s
          else s
      | none => s
    else s
  (s, r.2.1, r.2.2 ++ [Cb.pollCwd])

/-- `_immediate_resize` (lines 344-369): no-op until started; keep-alive;
pixel-resize the embedded window; then, when the session is ready, refine
the cell estimate, compute the clamped target grid and issue a
client-resize only when the reported client grid differs from it. -/
def immediate_resize (e : Env) (o : Obs) (now : Frac) (wRaw hRaw : ℤ)
    (s : PanelState) : PanelState × List Cmd × List Cb :=
  if !s.xterm_started then (s, [], [])
  else
    let r := ensure_alive e o now s
    let s := r.1
    let w := max wRaw 1
    let h := max hRaw 1
    let pixel := resize_xterm_child o w h
    if !s.tmux_ready then (s, r.2.1 ++ pixel, r.2.2)
    else
      let s := updateCells e o w h s
      let wantC := want_cols w s.cell_w
      let wantR := want_rows h s.cell_h
      if tmux_get_client_size e o ≠ some (wantC, wantR) then
        (s, r.2.1 ++ pixel ++ tmux_refresh_client e wantC wantR, r.2.2)
      else (s, r.2.1 ++ pixel, r.2.2)

/-- `_periodic_size_reconcile` (lines 337-342): run a reconciliation pass
on the current container size and reschedule itself. -/
def periodic_size_reconcile (e : Env) (o : Obs) (now : Frac) (s : PanelState) :
    PanelState × List Cmd × List Cb :=
  let r := immediate_resize e o now o.cont_w o.cont_h s
  (r.1, r.2.1, r.2.2 ++ [Cb.periodicReconcile])

/-- Dispatch one scheduled callback. `discoverXchild` only mutates the
cached X handle, which is irrelevant to the traced commands. -/
def execCb (e : Env) (o : Obs) (now : Frac) (s : PanelState) :
    Cb → PanelState × List Cmd × List Cb
  | Cb.maybeSpawn => maybe_spawn_xterm e o s
  | Cb.primeReady => mark_tmux_ready_and_prime e o s
  | Cb.pollCwd => poll_tmux_cwd e o now s
  | Cb.periodicReconcile => periodic_size_reconcile e o now s
  | Cb.discoverXchild => ({ s with x_child := o.xlib_ok }, [], [])

/-- Run the Tk callback queue: each step names a position in the pending
list (out-of-range steps are skipped), an observation and a time; the
executed callback is removed and its newly scheduled callbacks appended. -/
def runSched (e : Env) : PanelState → List Cb → List (ℕ × Obs × Frac) →
    PanelState × List Cmd × List Cb
  | s, pend, [] => (s, [], pend)
  | s, pend, (i, o, now) :: rest =>
      match pend.get? i with
      | none => runSched e s pend rest
      | some cb =>
          let r := execCb e o now s cb
          let rec' := runSched e r.1 (pend.eraseIdx i ++ r.2.2) rest
          (rec'.1, r.2.1 ++ rec'.2.1, rec'.2.2)

/-- Number of directory-injection sequences in a command trace. -/
def injections (l : List Cmd) : ℕ :=
  (l.filter fun c => match c with | Cmd.cdInject _ => true | _ => false).length

/-- One step of the bidirectional cwd synchronisation: either the host
requests a directory change (`terminal_set_cwd`) or the cwd poll runs and
observes the session state. -/
inductive CwdOp where
  | host (p : String)
  | session (o : Obs) (now : Frac)

/-- Dispatch one `CwdOp`. -/
def cwd_step (e : Env) (s : PanelState) : CwdOp → PanelState × List Cmd
  | CwdOp.host p => terminal_set_cwd e s p
  | CwdOp.session o now =>
      let r := poll_tmux_cwd e o now s
      (r.1, r.2.1)

/-- Fold a sequence of cwd operations, accumulating the command trace. -/
def cwd_run (e : Env) (s : PanelState) : List CwdOp → PanelState × List Cmd
  | [] => (s, [])
  | op :: rest =>
      let r := cwd_step e s op
      let rec' := cwd_run e r.1 rest
      (rec'.1, r.2 ++ rec'.2)

/-- Number of host-originated directory changes in a `CwdOp` sequence. -/
def countHost (ops : List CwdOp) : ℕ :=
  (ops.filter fun op => match op with | CwdOp.host _ => true | _ => false).length

/-- Fold a sequence of reconciliation passes (container resize events and
periodic reconciles), keeping only the state. -/
def reconcile_run (e : Env) (s : PanelState) :
    List (Obs × Frac × ℤ × ℤ) → PanelState
  | [] => s
  | (o, now, w, h) :: rest =>
      reconcile_run e (immediate_resize e o now w h s).1 rest

/-- Whether a call to `_ensure_alive` took one of the two cooldown-gated
respawn branches (each branch stamps `_last_respawn := now`; no other code
path of `_ensure_alive` modifies it). -/
def respawnAttempted (s s' : PanelState) : Prop :=
  s'.last_respawn ≠ s.last_respawn

/- ------------------------------------------------------------------ -/
/- Shutdown cleanup (`_terminal_cleanup`, lines 520-567), modelled in an
exception monad so that the try/except structure of the source is
explicit and "cleanup never raises" is a real statement. -/

/-- Primitive cleanup actions of `_terminal_cleanup`, in source order. -/
inductive Step where
  /-- `os.killpg(p.pid, SIGTERM)` -/
  | killpgTerm
  /-- `p.wait(timeout=1.0)` -/
  | procWait
  /-- `os.killpg(p.pid, SIGKILL)` -/
  | killpgKill
  /-- `subprocess.run([... "kill-server"])` -/
  | killServerRun
  /-- `self._x_dpy.close()` -/
  | dpyClose
  /-- `self.TMUX_DIR.exists()` -/
  | dirExistsQuery
  /-- `self.TMUX_DIR.iterdir()` -/
  | dirIter
  /-- `entry.unlink()` for the i-th entry -/
  | unlinkEntry (i : ℕ)
  /-- `self.TMUX_DIR.rmdir()` -/
  | rmdirDone
  /-- the final field resets (lines 563-567) -/
  | resetFields
  deriving DecidableEq, Repr

/-- Which primitive cleanup operations raise, and what the filesystem
looks like, covering every prior subsystem state the cleanup can meet. -/
structure CleanupOracle where
  killpg_term_ok : Bool
  wait_ok : Bool
  killpg_kill_ok : Bool
  run_ok : Bool
  dpy_close_ok : Bool
  exists_ok : Bool
  dir_exists : Bool
  iterdir_ok : Bool
  entries : ℕ
  unlink_ok : ℕ → Bool
  rmdir_ok : Bool

/-- Trace of executed primitives plus the panel fields. -/
structure CleanSt where
  trace : List Step
  panel : PanelState

/-- Python-like computation: may raise (carrying the state at the point of
the exception). -/
def PyM (α : Type) : Type := CleanSt → Except CleanSt (α × CleanSt)

instance : Monad PyM where
  pure a := fun st => Except.ok (a, st)
  bind x f := fun st =>
    match x st with
    | Except.ok (a, st') => f a st'
    | Except.error st' => Except.error st'

/-- Execute a primitive: record it in the trace, raise if `ok` is false. -/
def act (tag : Step) (ok : Bool) : PyM Unit := fun st =>
  let st := { st with trace := st.trace ++ [tag] }
  if ok then Except.ok ((), st) else Except.error st

/-- `try: x except Exception: pass`. -/
def tryPass (x : PyM Unit) : PyM Unit := fun st =>
  match x st with
  | Except.ok r => Except.ok r
  | Except.error st' => Except.ok ((), st')

/-- `try: x except Exception: h`. -/
def tryCatch (x h : PyM Unit) : PyM Unit := fun st =>
  match x st with
  | Except.ok r => Except.ok r
  | Except.error st' => h st'

/-- An infallible field assignment. -/
def modifyPanel (f : PanelState → PanelState) : PyM Unit := fun st =>
  Except.ok ((), { st with panel := f st.panel })

/-- Read the instance fields (an infallible attribute access). -/
def getPanel : PyM PanelState := fun st =>
  Except.ok (st.panel, st)

/-- The `for entry in iterdir(): try: entry.unlink() except: pass` loop. -/
def unlinkLoop (o : CleanupOracle) : ℕ → PyM Unit
  | 0 => pure ()
  | n + 1 => do
      tryPass (act (Step.unlinkEntry n) (o.unlink_ok n))
      unlinkLoop o n

/-- `_terminal_cleanup` (lines 520-567): kill the process group with
escalation, kill the tmux server, close the X display, remove the private
socket directory, then reset the panel fields; every fallible step is
wrapped exactly as in the source. -/
def terminal_cleanup (o : CleanupOracle) (e : Env) : PyM Unit := do
  let p ← getPanel
  if p.proc_exists then do
    tryPass (act Step.killpgTerm o.killpg_term_ok)
    tryCatch (act Step.procWait o.wait_ok)
      (tryPass (act Step.killpgKill o.killpg_kill_ok))
    modifyPanel fun s => { s with proc_exists := false }
  else pure ()
  if e.tmux_avail then
    tryPass (act Step.killServerRun o.run_ok)
  else pure ()
  let p2 ← getPanel
  tryPass (if p2.x_dpy then act Step.dpyClose o.dpy_close_ok else pure ())
  modifyPanel fun s => { s with x_dpy := false, x_child := false }
  tryPass (do
    act Step.dirExistsQuery o.exists_ok
    if o.dir_exists then do
      act Step.dirIter o.iterdir_ok
      unlinkLoop o o.entries
      act Step.rmdirDone o.rmdir_ok
    else pure ())
  act Step.resetFields true
  modifyPanel fun s => { s with
    xterm_started := false
    tmux_ready := false
    last_tmux_cwd := none
    pending_cd := none
    client_tty := none }

/- ------------------------------------------------------------------ -/
/- Auxiliary predicates and concrete fixtures used by the statements. -/

/-- Is a command a client-resize control command? -/
def isRefresh (c : Cmd) : Bool :=
  match c with
  | Cmd.refreshClient _ _ => true
  | _ => false

/-- Constraint on a `CwdOp`: a poll step observes a live process and an
existing session. -/
def sessionOpOk (op : CwdOp) : Prop :=
  match op with
  | CwdOp.host _ => True
  | CwdOp.session o _ => o.poll_dead = false ∧ o.has_session = true

/-- The callbacks that can be pending while the subsystem is inert. -/
def inertCb (cb : Cb) : Prop :=
  cb = Cb.maybeSpawn ∨ cb = Cb.periodicReconcile

instance (cb : Cb) : Decidable (inertCb cb) :=
  inferInstanceAs (Decidable (_ ∨ _))

/-- Number of pending `maybeSpawn` callbacks. -/
def countMS (pend : List Cb) : ℕ :=
  (pend.filter fun cb => cb = Cb.maybeSpawn).length

/-- Environment with both required binaries present and trivial path
resolution. -/
def envAll : Env :=
  { xterm_avail := true
    tmux_avail := true
    resolve := id
    expanduser := id
    exists_dir := fun _ => true }

/-- Environment in which both required binaries are absent. -/
def envNoTools : Env :=
  { envAll with xterm_avail := false, tmux_avail := false }

/-- Observation for the documented resize scenario: session alive, pane
and client grids both 80×24, container 800×480. -/
def obsC3 : Obs :=
  { has_session := true
    restart_ok := true
    poll_dead := false
    pane_cwd := none
    pane_size := some ⟨80, 24⟩
    client_size := some ⟨80, 24⟩
    client_tty := none
    mapped := true
    spawn_ok := true
    xlib_ok := false
    cont_w := 800
    cont_h := 480 }

/-- Observation in which the process is alive but the tmux session does
not exist yet. -/
def obsNoSession : Obs :=
  { obsC3 with has_session := false, pane_size := none, client_size := none }

/-- Observation in which the session is up and reports pane cwd
`/home/u`. -/
def obsSessionUp : Obs :=
  { obsC3 with pane_cwd := some "/home/u", pane_size := none, client_size := none }

/-- Observation in which the embedded process has exited. -/
def obsDead : Obs :=
  { obsC3 with poll_dead := true, has_session := false }

/-- Post-spawn state with a ready session and the seeded cell estimate. -/
def stReady : PanelState :=
  { init_terminal_panel none with
    xterm_started := true
    proc_exists := true
    tmux_ready := true }

/-- Alternating host-originated and session-originated changes of the
directory `/a`, as in the ping-pong scenario. -/
def opsAlt : List CwdOp :=
  [CwdOp.host "/a",
   CwdOp.session { obsSessionUp with pane_cwd := some "/a" } (Frac.ofInt 3),
   CwdOp.host "/a",
   CwdOp.session { obsSessionUp with pane_cwd := some "/a" } (Frac.ofInt 4)]

instance : (op : CwdOp) → Decidable (sessionOpOk op)
  | CwdOp.host _ => isTrue trivial
  | CwdOp.session _ _ => inferInstanceAs (Decidable (_ ∧ _))

/-- Post-spawn state whose readiness has not been confirmed yet. -/
def stUnready : PanelState :=
  { init_terminal_panel (some "/home/u") with
    xterm_started := true
    proc_exists := true
    x_dpy := true }

/-- Unready state whose terminal container is focused. -/
def stActiveUnready : PanelState :=
  { stUnready with terminal_active := true }

instance (f : Frac) : Decidable f.Pos :=
  inferInstanceAs (Decidable (_ ∧ _))

/-- A worst-case cleanup oracle: every fallible primitive raises, the
socket directory exists and holds two entries whose unlink fails too. -/
def oracleAllFail : CleanupOracle :=
  { killpg_term_ok := false
    wait_ok := false
    killpg_kill_ok := false
    run_ok := false
    dpy_close_ok := false
    exists_ok := false
    dir_exists := true
    iterdir_ok := false
    entries := 2
    unlink_ok := fun _ => false
    rmdir_ok := false }

/-- The pending-cd trace: `terminal_set_cwd("/data/proj")` arrives while
the session is not ready; the priming callback then runs while
`has-session` still fails; the next cwd poll finds the session up and is
the code path that confirms readiness. The result pairs the final state
with the full command trace. -/
def pendingTrace : PanelState × List Cmd :=
  let r1 := terminal_set_cwd envAll stUnready "/data/proj"
  let r2 := mark_tmux_ready_and_prime envAll obsNoSession r1.1
  let r3 := poll_tmux_cwd envAll obsSessionUp (Frac.ofInt 2) r2.1
  (r3.1, r1.2 ++ r2.2.1 ++ r3.2.1)

end Zeropad

/- ==================================================================== -/
/- Theorems.                                                            -/
/- ==================================================================== -/

namespace Zeropad

/-- Helper: `_ensure_alive` is a no-op when the embedded process is alive
and the session exists. -/
theorem ensure_alive_noop (e : Env) (o : Obs) (now : Frac) (s : PanelState)
    (halive : o.poll_dead = false) (hsess : o.has_session = true)
    (htm : e.tmux_avail = true) :
    ensure_alive e o now s = (s, [], []) := by
  unfold ensure_alive tmux_has_session
  simp [halive, hsess, htm]

/-- C1: evaluation of the code on the divergent schedule. When the
pending host directory change is present but the periodic cwd poll (not
the priming callback) is the code path that first confirms readiness,
the session ends up ready with zero directory-injection sequences issued
and the pending path still stored: `_poll_tmux_cwd` sets `_tmux_ready`
without applying `_pending_cd`, and `_mark_tmux_ready_and_prime` — the
only code that applies it — is scheduled exactly once, 600 ms after
spawn, so the requested directory is silently dropped, contradicting the
claimed "exactly one directory-injection sequence". -/
theorem c1_pending_cd_dropped_when_poll_confirms_readiness :
    pendingTrace.1.tmux_ready = true ∧
      pendingTrace.1.pending_cd = some "/data/proj" ∧
      injections pendingTrace.2 = 0 := by
  decide

/-- C3 counterexample: in the documented scenario (container 800×480,
previous grid 80×24, `cell_px=(8,16)`), the reconciliation pass does not
issue a client-resize with `cols=100, rows=30`. -/
theorem c3_counterexample :
    Cmd.refreshClient 100 30 ∉
      (immediate_resize envAll obsC3 (Frac.ofInt 100) 800 480 stReady).2.1 := by
  decide

/-- C3 (amended): starting from `cell_px=(8,16)` with previous grid 80×24,
a single reconciliation pass for a container of 800×480 px first smooths
the cell estimate (to `(8.7, 17.4)`), computes the target grid `(92, 28)`
and issues exactly one client-resize command, with `cols=92, rows=28`. -/
theorem c3_amended :
    reconcileTarget envAll obsC3 800 480 stReady = (92, 28) ∧
      ((immediate_resize envAll obsC3 (Frac.ofInt 100) 800 480 stReady).2.1.filter
        isRefresh) = [Cmd.refreshClient 92 28] := by
  constructor
  · decide
  · decide

/-- C4: for every container size from 1×1 up to 10000×10000 pixels and
every cell-size-estimate state whatsoever, the target grid computed by a
reconciliation pass satisfies `20 ≤ cols ≤ 400` and `5 ≤ rows ≤ 200`. -/
theorem c4_grid_clamped (e : Env) (o : Obs) (w h : ℤ) (s : PanelState)
    (hw1 : 1 ≤ w) (hw2 : w ≤ 10000) (hh1 : 1 ≤ h) (hh2 : h ≤ 10000) :
    20 ≤ (reconcileTarget e o w h s).1 ∧ (reconcileTarget e o w h s).1 ≤ 400 ∧
      5 ≤ (reconcileTarget e o w h s).2 ∧ (reconcileTarget e o w h s).2 ≤ 200 := by
  unfold reconcileTarget want_cols want_rows
  dsimp only
  omega

/-- C4 witness: the bounds at container 800×480 in the seeded state. -/
theorem c4_grid_clamped_witness :
    20 ≤ (reconcileTarget envAll obsC3 800 480 stReady).1 ∧
      (reconcileTarget envAll obsC3 800 480 stReady).1 ≤ 400 ∧
      5 ≤ (reconcileTarget envAll obsC3 800 480 stReady).2 ∧
      (reconcileTarget envAll obsC3 800 480 stReady).2 ≤ 200 :=
  c4_grid_clamped envAll obsC3 800 480 stReady (by decide) (by decide)
    (by decide) (by decide)

/-- C5: a reconciliation pass of `_immediate_resize` issues a client-resize
command exactly when the client grid currently reported by the session
differs from the computed target grid; when the session already reports
the target, no client-resize command is issued, so reconciliation in an
unchanged state is a no-op with respect to resize commands. -/
theorem c5_resize_only_when_grid_differs (e : Env) (o : Obs) (now : Frac)
    (wRaw hRaw : ℤ) (s : PanelState)
    (htm : e.tmux_avail = true) (hst : s.xterm_started = true)
    (hrd : s.tmux_ready = true)
    (halive : o.poll_dead = false) (hsess : o.has_session = true) :
    ((∃ c r, Cmd.refreshClient c r ∈ (immediate_resize e o now wRaw hRaw s).2.1) ↔
      tmux_get_client_size e o ≠
        some (reconcileTarget e o (max wRaw 1) (max hRaw 1) s)) := by
  have hea := ensure_alive_noop e o now s halive hsess htm
  unfold immediate_resize
  rw [hea]
  simp only [hst, hrd, Bool.not_true, Bool.false_eq_true, if_false, reduceIte]
  unfold reconcileTarget
  by_cases hcc : tmux_get_client_size e o =
      some ((updateCells e o (max wRaw 1) (max hRaw 1) s).cell_w |> want_cols (max wRaw 1),
            (updateCells e o (max wRaw 1) (max hRaw 1) s).cell_h |> want_rows (max hRaw 1))
  · simp [hcc, resize_xterm_child]
  · simp [hcc, resize_xterm_child, tmux_refresh_client, htm]

/-- C5 witness: in the 800×480 scenario the reported grid (80×24) differs
from the target (92×28) and indeed a resize command is present. -/
theorem c5_resize_only_when_grid_differs_witness :
    ((∃ c r, Cmd.refreshClient c r ∈
        (immediate_resize envAll obsC3 (Frac.ofInt 100) 800 480 stReady).2.1) ↔
      tmux_get_client_size envAll obsC3 ≠
        some (reconcileTarget envAll obsC3 (max 800 1) (max 480 1) stReady)) :=
  c5_resize_only_when_grid_differs envAll obsC3 (Frac.ofInt 100) 800 480 stReady
    rfl rfl rfl rfl rfl

/-- C10: when the terminal container is active but the session is not yet
ready, the intercepted Ctrl+D chord is consumed (handler answers "break")
while no control command is sent (`_tmux_send_ctrl` drops it); when the
terminal is not active, the handler falls through without issuing
anything. -/
theorem c10_ctrl_d_dropped_when_unready (e : Env) (s : PanelState)
    (ks : Option String) :
    (s.terminal_active = true → s.tmux_ready = false →
      intercept_ctrl e s (some "d") = (InterceptResult.breakEvent, [])) ∧
    (s.terminal_active = false →
      intercept_ctrl e s ks = (InterceptResult.fallthrough, [])) := by
  constructor
  · intro ha hr
    have hl : pyLower "d" = "d" := by decide
    unfold intercept_ctrl tmux_send_ctrl
    rw [ha, hr]
    simp [hl]
  · intro ha
    unfold intercept_ctrl
    simp [ha]

/-- C10 witness: the active-but-unready state consumes Ctrl+D silently;
an inactive state falls through. -/
theorem c10_ctrl_d_dropped_when_unready_witness :
    intercept_ctrl envAll stActiveUnready (some "d") =
      (InterceptResult.breakEvent, []) ∧
    intercept_ctrl envAll stUnready (some "d") =
      (InterceptResult.fallthrough, []) :=
  ⟨(c10_ctrl_d_dropped_when_unready envAll stActiveUnready (some "d")).1 rfl rfl,
   (c10_ctrl_d_dropped_when_unready envAll stUnready (some "d")).2 rfl⟩

/-- Helper: positivity is preserved by fraction addition. -/
theorem frac_add_pos {a b : Frac} (ha : a.Pos) (hb : b.Pos) :
    (Frac.add a b).Pos := by
  obtain ⟨h1, h2⟩ := ha
  obtain ⟨h3, h4⟩ := hb
  exact ⟨add_pos (mul_pos h1 h4) (mul_pos h3 h2), mul_pos h2 h4⟩

/-- Helper: positivity is preserved by fraction multiplication. -/
theorem frac_mul_pos {a b : Frac} (ha : a.Pos) (hb : b.Pos) :
    (Frac.mul a b).Pos := by
  obtain ⟨h1, h2⟩ := ha
  obtain ⟨h3, h4⟩ := hb
  exact ⟨mul_pos h1 h3, mul_pos h2 h4⟩

/-- Helper: the per-cell estimate `w_px / max(ref, 1)` is positive. -/
theorem est_pos {v m : ℤ} (hv : 1 ≤ v) :
    (Frac.div (Frac.ofInt v) (Frac.ofInt (max m 1))).Pos := by
  have hm : (1:ℤ) ≤ max m 1 := le_max_right m 1
  unfold Frac.div Frac.ofInt
  dsimp only
  split_ifs with h1 h2 <;> constructor <;> simp_all <;> omega

/-- Helper: one exponential-smoothing update with `alpha = 0.35` keeps the
estimate positive. -/
theorem smooth_pos {cell est : Frac} (hc : cell.Pos) (he : est.Pos) :
    (Frac.add (Frac.mul (Frac.sub Frac.one alpha) cell)
      (Frac.mul alpha est)).Pos :=
  frac_add_pos (frac_mul_pos (by decide) hc) (frac_mul_pos (by decide) he)

/-- Helper: `updateCells` preserves positivity of both cell estimates. -/
theorem updateCells_pos (e : Env) (o : Obs) {w h : ℤ} (s : PanelState)
    (hw : 1 ≤ w) (hh : 1 ≤ h) (hcw : s.cell_w.Pos) (hch : s.cell_h.Pos) :
    (updateCells e o w h s).cell_w.Pos ∧ (updateCells e o w h s).cell_h.Pos := by
  unfold updateCells
  dsimp only
  split_ifs with href
  · exact ⟨smooth_pos hcw (est_pos hw), smooth_pos hch (est_pos hh)⟩
  · exact ⟨hcw, hch⟩

/-- Helper: `_maybe_spawn_xterm` never touches the cell estimates. -/
theorem maybe_spawn_cells (e : Env) (o : Obs) (s : PanelState) :
    (maybe_spawn_xterm e o s).1.cell_w = s.cell_w ∧
      (maybe_spawn_xterm e o s).1.cell_h = s.cell_h := by
  unfold maybe_spawn_xterm
  split_ifs <;> simp

/-- Helper: `_restart_tmux_session` never touches the cell estimates. -/
theorem restart_cells (e : Env) (o : Obs) (s : PanelState) :
    (restart_tmux_session e o s).1.cell_w = s.cell_w ∧
      (restart_tmux_session e o s).1.cell_h = s.cell_h := by
  unfold restart_tmux_session tmux_cd_to
  split_ifs <;> cases hc : s.host_cwd <;> simp [hc]

/-- Helper: `_ensure_alive` never touches the cell estimates. -/
theorem ensure_alive_cells (e : Env) (o : Obs) (now : Frac) (s : PanelState) :
    (ensure_alive e o now s).1.cell_w = s.cell_w ∧
      (ensure_alive e o now s).1.cell_h = s.cell_h := by
  unfold ensure_alive respawn_xterm_and_tmux
  split_ifs <;>
    simp [maybe_spawn_cells, restart_cells, (maybe_spawn_cells e o _).1,
      (maybe_spawn_cells e o _).2, (restart_cells e o _).1, (restart_cells e o _).2]

/-- Helper: a reconciliation pass preserves positivity of the cell
estimates. -/
theorem immediate_resize_cells_pos (e : Env) (o : Obs) (now : Frac)
    (wRaw hRaw : ℤ) (s : PanelState)
    (hcw : s.cell_w.Pos) (hch : s.cell_h.Pos) :
    (immediate_resize e o now wRaw hRaw s).1.cell_w.Pos ∧
      (immediate_resize e o now wRaw hRaw s).1.cell_h.Pos := by
  unfold immediate_resize
  dsimp only
  split_ifs with h1 h2 h3
  · exact ⟨hcw, hch⟩
  · obtain ⟨e1, e2⟩ := ensure_alive_cells e o now s
    exact ⟨e1 ▸ hcw, e2 ▸ hch⟩
  · obtain ⟨e1, e2⟩ := ensure_alive_cells e o now s
    exact updateCells_pos e o (ensure_alive e o now s).1
      (le_max_right wRaw 1) (le_max_right hRaw 1) (e1 ▸ hcw) (e2 ▸ hch)
  · obtain ⟨e1, e2⟩ := ensure_alive_cells e o now s
    exact updateCells_pos e o (ensure_alive e o now s).1
      (le_max_right wRaw 1) (le_max_right hRaw 1) (e1 ▸ hcw) (e2 ▸ hch)

/-- C7: over every sequence of reconciliation passes from the initial
state (cell estimate seeded at `(8.0, 16.0)`), the smoothed cell estimates
stay strictly positive: every exponential-smoothing update with
`alpha = 0.35` preserves strict positivity, and no other code path touches
them. -/
theorem c7_cell_estimate_stays_positive (e : Env) (cwd0 : Option String)
    (inputs : List (Obs × Frac × ℤ × ℤ)) :
    (reconcile_run e (init_terminal_panel cwd0) inputs).cell_w.Pos ∧
      (reconcile_run e (init_terminal_panel cwd0) inputs).cell_h.Pos := by
  have hgen : ∀ (l : List (Obs × Frac × ℤ × ℤ)) (s : PanelState),
      s.cell_w.Pos → s.cell_h.Pos →
      (reconcile_run e s l).cell_w.Pos ∧ (reconcile_run e s l).cell_h.Pos := by
    intro l
    induction l with
    | nil => intro s hw hh; exact ⟨hw, hh⟩
    | cons a rest ih =>
        intro s hw hh
        obtain ⟨o, now, w, h⟩ := a
        have hstep := immediate_resize_cells_pos e o now w h s hw hh
        exact ih _ hstep.1 hstep.2
  have h8 : (Frac.ofInt 8).Pos := by decide
  have h16 : (Frac.ofInt 16).Pos := by decide
  exact hgen inputs (init_terminal_panel cwd0) h8 h16

/-- Helper: `_maybe_spawn_xterm` never touches the respawn stamp. -/
theorem maybe_spawn_last (e : Env) (o : Obs) (s : PanelState) :
    (maybe_spawn_xterm e o s).1.last_respawn = s.last_respawn := by
  unfold maybe_spawn_xterm
  split_ifs <;> simp

/-- Helper: `_restart_tmux_session` never touches the respawn stamp. -/
theorem restart_last (e : Env) (o : Obs) (s : PanelState) :
    (restart_tmux_session e o s).1.last_respawn = s.last_respawn := by
  unfold restart_tmux_session tmux_cd_to
  split_ifs <;> cases hc : s.host_cwd <;> simp [hc]

/-- Helper: `_respawn_xterm_and_tmux` never touches the respawn stamp. -/
theorem respawn_last (e : Env) (o : Obs) (s : PanelState) :
    (respawn_xterm_and_tmux e o s).1.last_respawn = s.last_respawn := by
  unfold respawn_xterm_and_tmux
  dsimp only
  rw [maybe_spawn_last]

/-- Helper: when the cooldown gate fails, `_ensure_alive` leaves the
respawn stamp unchanged (both gated branches test the same condition). -/
theorem ensure_alive_last_unchanged (e : Env) (o : Obs) (now : Frac)
    (s : PanelState)
    (hgate : ¬ Frac.le RESPAWN_COOLDOWN (Frac.sub now s.last_respawn)) :
    (ensure_alive e o now s).1.last_respawn = s.last_respawn := by
  unfold ensure_alive
  split_ifs <;> rfl

/-- Helper: a dead process plus an elapsed cooldown stamps the respawn
time. -/
theorem ensure_alive_dead_respawn (e : Env) (o : Obs) (now : Frac)
    (s : PanelState) (hp : s.proc_exists = true) (hdead : o.poll_dead = true)
    (hgate : Frac.le RESPAWN_COOLDOWN (Frac.sub now s.last_respawn)) :
    (ensure_alive e o now s).1.last_respawn = now := by
  unfold ensure_alive
  simp only [hp, hdead, Bool.and_self, if_true, reduceIte, hgate]
  rw [respawn_last]

/-- C6: the respawn cooldown. If the process is detected dead at `t1` with
the cooldown elapsed (one respawn attempt occurs, stamping `t1`), then a
second death detection at any `t2` within one second of `t1` attempts no
respawn, whatever the observations; and any death detection with the
cooldown elapsed since the last respawn always triggers an attempt.
Times are fractions with positive denominators. -/
theorem c6_respawn_cooldown (e : Env) (o1 o2 : Obs) (t1 t2 : Frac)
    (s0 : PanelState)
    (ht1 : 0 < t1.den) (hlr : 0 < s0.last_respawn.den)
    (hp : s0.proc_exists = true) (hdead1 : o1.poll_dead = true)
    (hgate1 : Frac.le RESPAWN_COOLDOWN (Frac.sub t1 s0.last_respawn))
    (hwin : Frac.lt (Frac.sub t2 t1) RESPAWN_COOLDOWN) :
    (respawnAttempted s0 (ensure_alive e o1 t1 s0).1 ∧
      ¬ respawnAttempted (ensure_alive e o1 t1 s0).1
        (ensure_alive e o2 t2 (ensure_alive e o1 t1 s0).1).1) ∧
    (∀ (s : PanelState) (o : Obs) (t : Frac), 0 < t.den →
      0 < s.last_respawn.den →
      s.proc_exists = true → o.poll_dead = true →
      Frac.le RESPAWN_COOLDOWN (Frac.sub t s.last_respawn) →
      respawnAttempted s (ensure_alive e o t s).1) := by
  have hb : ∀ (s : PanelState) (o : Obs) (t : Frac), 0 < t.den →
      0 < s.last_respawn.den →
      s.proc_exists = true → o.poll_dead = true →
      Frac.le RESPAWN_COOLDOWN (Frac.sub t s.last_respawn) →
      respawnAttempted s (ensure_alive e o t s).1 := by
    intro s o t htd hsd hps hds hg
    unfold respawnAttempted
    rw [ensure_alive_dead_respawn e o t s hps hds hg]
    intro heq
    rw [heq] at hg
    unfold Frac.le Frac.sub RESPAWN_COOLDOWN Frac.one at hg
    dsimp only at hg
    nlinarith [mul_pos hsd hsd]
  refine ⟨⟨hb s0 o1 t1 ht1 hlr hp hdead1 hgate1, ?_⟩, hb⟩
  have hs1 : (ensure_alive e o1 t1 s0).1.last_respawn = t1 :=
    ensure_alive_dead_respawn e o1 t1 s0 hp hdead1 hgate1
  unfold respawnAttempted
  rw [ensure_alive_last_unchanged]
  · simp
  · rw [hs1]
    unfold Frac.le Frac.sub RESPAWN_COOLDOWN Frac.one
    unfold Frac.lt Frac.sub RESPAWN_COOLDOWN Frac.one at hwin
    dsimp only at hwin ⊢
    intro hcon
    omega

/-- C6 witness: deaths at `t1 = 2` and `t2 = 2.5` with the stamp at 0. -/
theorem c6_respawn_cooldown_witness :
    (respawnAttempted stReady
        (ensure_alive envAll obsDead (Frac.ofInt 2) stReady).1 ∧
      ¬ respawnAttempted (ensure_alive envAll obsDead (Frac.ofInt 2) stReady).1
        (ensure_alive envAll obsDead ⟨5, 2⟩
          (ensure_alive envAll obsDead (Frac.ofInt 2) stReady).1).1) ∧
    (∀ (s : PanelState) (o : Obs) (t : Frac), 0 < t.den →
      0 < s.last_respawn.den →
      s.proc_exists = true → o.poll_dead = true →
      Frac.le RESPAWN_COOLDOWN (Frac.sub t s.last_respawn) →
      respawnAttempted s (ensure_alive envAll o t s).1) :=
  c6_respawn_cooldown envAll obsDead obsDead (Frac.ofInt 2) ⟨5, 2⟩ stReady
    (by decide) (by decide) (by decide) (by decide) (by decide) (by decide)

/-- Helper: `set_cwd` of the main application only updates the logical
cwd; the readiness flag is untouched. -/
theorem set_cwd_ready (e : Env) (s : PanelState) (p : String) :
    (set_cwd e s p).tmux_ready = s.tmux_ready := by
  unfold set_cwd
  dsimp only
  split_ifs <;> rfl

/-- Helper: injection counting distributes over trace concatenation. -/
theorem injections_append (a b : List Cmd) :
    injections (a ++ b) = injections a + injections b := by
  unfold injections
  simp [List.filter_append]

/-- Helper: a cwd poll over a ready session with a live process issues no
commands at all and keeps the session ready. -/
theorem poll_session_step (e : Env) (o : Obs) (now : Frac) (s : PanelState)
    (htm : e.tmux_avail = true) (hrd : s.tmux_ready = true)
    (halive : o.poll_dead = false) (hsess : o.has_session = true) :
    (poll_tmux_cwd e o now s).2.1 = [] ∧
      (poll_tmux_cwd e o now s).1.tmux_ready = true := by
  unfold poll_tmux_cwd
  rw [ensure_alive_noop e o now s halive hsess htm]
  dsimp only
  simp only [hrd, Bool.not_true, Bool.false_eq_true, if_false, reduceIte]
  constructor
  · trivial
  · cases htc : tmux_get_cwd e o <;> simp [htc, hrd]
    split_ifs <;> simp [set_cwd_ready, hrd]

/-- Helper: a host-originated change on a ready session issues exactly one
directory-injection sequence and keeps the session ready. -/
theorem host_step_inject (e : Env) (s : PanelState) (p : String)
    (htm : e.tmux_avail = true) (hrd : s.tmux_ready = true) :
    injections (terminal_set_cwd e s p).2 = 1 ∧
      (terminal_set_cwd e s p).1.tmux_ready = true := by
  unfold terminal_set_cwd tmux_cd_to
  simp [hrd, htm, injections]

/-- C2: for every sequence of host-originated directory changes
(`terminal_set_cwd` on a ready session) and session-originated changes
(observed by `_poll_tmux_cwd`), the number of directory-injection
sequences issued equals exactly the number of host-originated changes:
a session-originated change never triggers an injection back into the
session. (This covers in particular alternating sequences naming one and
the same path.) -/
theorem c2_no_cwd_ping_pong (e : Env) (htm : e.tmux_avail = true) :
    ∀ (ops : List CwdOp) (s : PanelState), s.tmux_ready = true →
      (∀ op ∈ ops, sessionOpOk op) →
      injections (cwd_run e s ops).2 = countHost ops := by
  intro ops
  induction ops with
  | nil =>
      intro s hrd hops
      simp [cwd_run, injections, countHost]
  | cons op rest ih =>
      intro s hrd hops
      have hop : sessionOpOk op := hops op (List.mem_cons_self op rest)
      have hrest : ∀ x ∈ rest, sessionOpOk x :=
        fun x hx => hops x (List.mem_cons_of_mem op hx)
      cases op with
      | host p =>
          unfold cwd_run cwd_step
          dsimp only
          rw [injections_append]
          obtain ⟨hi, hr⟩ := host_step_inject e s p htm hrd
          rw [hi, ih (terminal_set_cwd e s p).1 hr hrest]
          unfold countHost
          simp [List.filter]
          omega
      | session o now =>
          obtain ⟨ho1, ho2⟩ := hop
          unfold cwd_run cwd_step
          dsimp only
          rw [injections_append]
          obtain ⟨hi, hr⟩ := poll_session_step e o now s htm hrd ho1 ho2
          rw [hi, ih (poll_tmux_cwd e o now s).1 hr hrest]
          unfold countHost injections
          simp [List.filter]

/-- C2 witness: two host changes alternating with two session-observed
changes of the same path `/a` yield exactly two injection sequences. -/
theorem c2_no_cwd_ping_pong_witness :
    injections (cwd_run envAll stReady opsAlt).2 = countHost opsAlt := by
  have hops : ∀ op ∈ opsAlt, sessionOpOk op := by decide
  exact c2_no_cwd_ping_pong envAll rfl opsAlt stReady rfl hops

/-- Helper: `countMS` distributes over append. -/
theorem countMS_append (a b : List Cb) :
    countMS (a ++ b) = countMS a + countMS b := by
  unfold countMS
  simp [List.filter_append]

/-- Helper: removing the executed callback accounts for one `maybeSpawn`
when that is what was executed. -/
theorem countMS_eraseIdx (p : List Cb) (i : ℕ) (cb : Cb)
    (h : p.get? i = some cb) :
    countMS p = countMS (p.eraseIdx i) +
      (if cb = Cb.maybeSpawn then 1 else 0) := by
  induction p generalizing i with
  | nil => simp at h
  | cons a rest ih =>
      cases i with
      | zero =>
          simp only [List.get?] at h
          injection h with h
          subst h
          unfold countMS
          simp [List.filter_cons]
          split_ifs <;> simp
      | succ n =>
          simp only [List.get?] at h
          have := ih n h
          unfold countMS at this ⊢
          simp only [List.eraseIdx]
          simp [List.filter_cons]
          split_ifs <;> simp_all <;> omega

/-- Helper: with a required binary absent, an unmapped container just
reschedules the spawn retry. -/
theorem maybe_spawn_missing_unmapped (e : Env) (o : Obs) (s : PanelState)
    (hmiss : e.xterm_avail = false ∨ e.tmux_avail = false)
    (hst : s.xterm_started = false) (hm : o.mapped = false) :
    maybe_spawn_xterm e o s = (s, [], [Cb.maybeSpawn]) := by
  unfold maybe_spawn_xterm
  rcases hmiss with h | h <;> simp [h, hst, hm]

/-- Helper: with a required binary absent and the container mapped, the
spawn attempt shows the missing-tools notice, spawns nothing and
schedules nothing. -/
theorem maybe_spawn_missing_mapped (e : Env) (o : Obs) (s : PanelState)
    (hmiss : e.xterm_avail = false ∨ e.tmux_avail = false)
    (hst : s.xterm_started = false) (hm : o.mapped = true) :
    maybe_spawn_xterm e o s = (s, [Cmd.notifyMissing (missingNames e)], []) := by
  unfold maybe_spawn_xterm
  rcases hmiss with h | h <;> simp [h, hst, hm]

/-- Helper: the periodic reconcile is a pure self-reschedule while
nothing has been spawned. -/
theorem periodic_unstarted (e : Env) (o : Obs) (now : Frac) (s : PanelState)
    (hst : s.xterm_started = false) :
    periodic_size_reconcile e o now s = (s, [], [Cb.periodicReconcile]) := by
  unfold periodic_size_reconcile immediate_resize
  simp [hst]

/-- Helper: with a required binary absent, any run of the callback queue
from an unspawned state emits only missing-tools notices, at most
`countMS pend` of them in total, keeps only spawn-retry and periodic
callbacks pending, and never starts the terminal. -/
theorem runSched_missing (e : Env)
    (hmiss : e.xterm_avail = false ∨ e.tmux_avail = false) :
    ∀ (steps : List (ℕ × Obs × Frac)) (s : PanelState) (pend : List Cb),
      s.xterm_started = false → (∀ cb ∈ pend, inertCb cb) →
      (∀ c ∈ (runSched e s pend steps).2.1, ∃ ns, c = Cmd.notifyMissing ns) ∧
      (runSched e s pend steps).2.1.length + countMS (runSched e s pend steps).2.2 ≤
        countMS pend ∧
      (∀ cb ∈ (runSched e s pend steps).2.2, inertCb cb) ∧
      (runSched e s pend steps).1.xterm_started = false := by
  intro steps
  induction steps with
  | nil =>
      intro s pend hst hpend
      unfold runSched
      exact ⟨by simp, by simp, hpend, hst⟩
  | cons step rest ih =>
      intro s pend hst hpend
      obtain ⟨i, o, now⟩ := step
      unfold runSched
      cases hg : pend.get? i with
      | none =>
          exact ih s pend hst hpend
      | some cb =>
          have hcb : inertCb cb := hpend cb (List.get?_mem hg)
          have hcount := countMS_eraseIdx pend i cb hg
          have herase : ∀ x ∈ pend.eraseIdx i, inertCb x :=
            fun x hx => hpend x (List.mem_of_mem_eraseIdx hx)
          rcases hcb with hcb | hcb <;> subst hcb <;> dsimp only [execCb]
          · -- maybeSpawn
            have hcount1 : countMS pend = countMS (pend.eraseIdx i) + 1 := by
              simpa using hcount
            cases hm : o.mapped
            · rw [maybe_spawn_missing_unmapped e o s hmiss hst hm]
              dsimp only
              simp only [List.nil_append]
              have hpend2 : ∀ x ∈ pend.eraseIdx i ++ [Cb.maybeSpawn], inertCb x := by
                intro x hx
                rcases List.mem_append.mp hx with hx | hx
                · exact herase x hx
                · simp at hx; subst hx; exact Or.inl rfl
              obtain ⟨hr1, hr2, hr3, hr4⟩ :=
                ih s (pend.eraseIdx i ++ [Cb.maybeSpawn]) hst hpend2
              refine ⟨hr1, ?_, hr3, hr4⟩
              have hone : countMS [Cb.maybeSpawn] = 1 := by decide
              have hms : countMS (pend.eraseIdx i ++ [Cb.maybeSpawn]) =
                  countMS (pend.eraseIdx i) + 1 := by
                rw [countMS_append, hone]
              omega
            · rw [maybe_spawn_missing_mapped e o s hmiss hst hm]
              dsimp only
              simp only [List.append_nil, List.singleton_append]
              obtain ⟨hr1, hr2, hr3, hr4⟩ := ih s (pend.eraseIdx i) hst herase
              refine ⟨?_, ?_, hr3, hr4⟩
              · intro c hc
                rcases List.mem_cons.mp hc with hc | hc
                · exact ⟨_, hc⟩
                · exact hr1 c hc
              · simp only [List.length_cons]
                omega
          · -- periodicReconcile
            have hcount0 : countMS pend = countMS (pend.eraseIdx i) := by
              simpa using hcount
            rw [periodic_unstarted e o now s hst]
            dsimp only
            simp only [List.nil_append]
            have hpend2 : ∀ x ∈ pend.eraseIdx i ++ [Cb.periodicReconcile], inertCb x := by
              intro x hx
              rcases List.mem_append.mp hx with hx | hx
              · exact herase x hx
              · simp at hx; subst hx; exact Or.inr rfl
            obtain ⟨hr1, hr2, hr3, hr4⟩ :=
              ih s (pend.eraseIdx i ++ [Cb.periodicReconcile]) hst hpend2
            refine ⟨hr1, ?_, hr3, hr4⟩
            have hzero : countMS [Cb.periodicReconcile] = 0 := by decide
            have hms : countMS (pend.eraseIdx i ++ [Cb.periodicReconcile]) =
                countMS (pend.eraseIdx i) := by
              rw [countMS_append, hzero]
              omega
            omega

/-- C8: with the terminal-emulator or multiplexer binary absent, every
execution of the callback queue from startup state emits nothing but
missing-dependency notices — at most one in total, so no process spawn,
no resize or control command, and no cwd-poll or priming callback is
ever scheduled — and the one spawn attempt that finds the container
mapped shows exactly the list of absent binaries, once, scheduling
nothing further (inert until the host forces a retry). -/
theorem c8_missing_dependency_inert (e : Env) (cwd0 : Option String)
    (hmiss : e.xterm_avail = false ∨ e.tmux_avail = false) :
    (∀ (steps : List (ℕ × Obs × Frac)),
      (∀ c ∈ (runSched e (init_terminal_panel cwd0)
          [Cb.maybeSpawn, Cb.periodicReconcile] steps).2.1,
        ∃ ns, c = Cmd.notifyMissing ns) ∧
      (runSched e (init_terminal_panel cwd0)
          [Cb.maybeSpawn, Cb.periodicReconcile] steps).2.1.length ≤ 1 ∧
      (∀ cb ∈ (runSched e (init_terminal_panel cwd0)
          [Cb.maybeSpawn, Cb.periodicReconcile] steps).2.2, inertCb cb) ∧
      (runSched e (init_terminal_panel cwd0)
          [Cb.maybeSpawn, Cb.periodicReconcile] steps).1.xterm_started = false) ∧
    (∀ (o : Obs) (s : PanelState), s.xterm_started = false → o.mapped = true →
      maybe_spawn_xterm e o s = (s, [Cmd.notifyMissing (missingNames e)], [])) := by
  constructor
  · intro steps
    have hpend0 : ∀ cb ∈ [Cb.maybeSpawn, Cb.periodicReconcile], inertCb cb := by
      decide
    have h := runSched_missing e hmiss steps (init_terminal_panel cwd0)
      [Cb.maybeSpawn, Cb.periodicReconcile] rfl hpend0
    obtain ⟨h1, h2, h3, h4⟩ := h
    have hcnt : countMS [Cb.maybeSpawn, Cb.periodicReconcile] = 1 := by decide
    exact ⟨h1, by omega, h3, h4⟩
  · intro o s hst hm
    exact maybe_spawn_missing_mapped e o s hmiss hst hm

/-- C8 witness: both binaries absent. -/
theorem c8_missing_dependency_inert_witness :
    (∀ (steps : List (ℕ × Obs × Frac)),
      (∀ c ∈ (runSched envNoTools (init_terminal_panel none)
          [Cb.maybeSpawn, Cb.periodicReconcile] steps).2.1,
        ∃ ns, c = Cmd.notifyMissing ns) ∧
      (runSched envNoTools (init_terminal_panel none)
          [Cb.maybeSpawn, Cb.periodicReconcile] steps).2.1.length ≤ 1 ∧
      (∀ cb ∈ (runSched envNoTools (init_terminal_panel none)
          [Cb.maybeSpawn, Cb.periodicReconcile] steps).2.2, inertCb cb) ∧
      (runSched envNoTools (init_terminal_panel none)
          [Cb.maybeSpawn, Cb.periodicReconcile] steps).1.xterm_started = false) ∧
    (∀ (o : Obs) (s : PanelState), s.xterm_started = false → o.mapped = true →
      maybe_spawn_xterm envNoTools o s =
        (s, [Cmd.notifyMissing (missingNames envNoTools)], [])) :=
  c8_missing_dependency_inert envNoTools none (Or.inl rfl)

theorem pyBind_def {α β : Type} (x : PyM α) (f : α → PyM β) (st : CleanSt) :
    (x >>= f) st = match x st with
      | Except.ok (a, st') => f a st'
      | Except.error st' => Except.error st' := rfl

theorem pyPure_def {α : Type} (a : α) (st : CleanSt) :
    (pure a : PyM α) st = Except.ok (a, st) := rfl

theorem tryPass_act (t : Step) (b : Bool) (st : CleanSt) :
    tryPass (act t b) st =
      Except.ok ((), ⟨st.trace ++ [t], st.panel⟩) := by
  unfold tryPass act
  cases b <;> rfl

theorem tryPass_pure (st : CleanSt) :
    tryPass (pure ()) st = Except.ok ((), st) := rfl

theorem act_true (t : Step) (st : CleanSt) :
    act t true st = Except.ok ((), ⟨st.trace ++ [t], st.panel⟩) := rfl

theorem act_false (t : Step) (st : CleanSt) :
    act t false st = Except.error ⟨st.trace ++ [t], st.panel⟩ := rfl

theorem tryCatch_act_tryPass (t1 : Step) (b1 : Bool) (t2 : Step) (b2 : Bool)
    (st : CleanSt) :
    ∃ tr2, tryCatch (act t1 b1) (tryPass (act t2 b2)) st =
      Except.ok ((), ⟨st.trace ++ tr2, st.panel⟩) := by
  cases b1
  · refine ⟨[t1, t2], ?_⟩
    unfold tryCatch
    rw [act_false]
    dsimp only
    rw [tryPass_act]
    simp
  · refine ⟨[t1], ?_⟩
    unfold tryCatch
    rw [act_true]

/-- A computation that can only append to the trace, leaving the panel
unchanged, whether it succeeds or raises. -/
def TraceOnly (x : PyM Unit) : Prop :=
  ∀ st, (∃ tr2, x st = Except.ok ((), ⟨st.trace ++ tr2, st.panel⟩)) ∨
    (∃ tr2, x st = Except.error ⟨st.trace ++ tr2, st.panel⟩)

theorem traceOnly_act (t : Step) (b : Bool) : TraceOnly (act t b) := by
  intro st
  unfold act
  cases b
  · exact Or.inr ⟨[t], rfl⟩
  · exact Or.inl ⟨[t], rfl⟩

theorem traceOnly_pure : TraceOnly (pure ()) := by
  intro st
  exact Or.inl ⟨[], by simp [pyPure_def]⟩

theorem traceOnly_bind {x y : PyM Unit} (hx : TraceOnly x) (hy : TraceOnly y) :
    TraceOnly (x >>= fun _ => y) := by
  intro st
  rcases hx st with ⟨tr1, hx1⟩ | ⟨tr1, hx1⟩
  · rcases hy ⟨st.trace ++ tr1, st.panel⟩ with ⟨tr2, hy1⟩ | ⟨tr2, hy1⟩
    · left
      refine ⟨tr1 ++ tr2, ?_⟩
      rw [pyBind_def, hx1]
      dsimp only
      rw [hy1]
      simp
    · right
      refine ⟨tr1 ++ tr2, ?_⟩
      rw [pyBind_def, hx1]
      dsimp only
      rw [hy1]
      simp
  · right
    refine ⟨tr1, ?_⟩
    rw [pyBind_def, hx1]

theorem traceOnly_tryPass_ok {x : PyM Unit} (hx : TraceOnly x) (st : CleanSt) :
    ∃ tr2, tryPass x st = Except.ok ((), ⟨st.trace ++ tr2, st.panel⟩) := by
  unfold tryPass
  rcases hx st with ⟨tr1, hx1⟩ | ⟨tr1, hx1⟩ <;> rw [hx1] <;> exact ⟨tr1, rfl⟩

theorem traceOnly_unlinkLoop (o : CleanupOracle) (n : ℕ) :
    TraceOnly (unlinkLoop o n) := by
  induction n with
  | zero => exact traceOnly_pure
  | succ m ih =>
      unfold unlinkLoop
      refine traceOnly_bind ?_ ih
      intro st
      rw [tryPass_act]
      exact Or.inl ⟨[Step.unlinkEntry m], rfl⟩

theorem traceOnly_dirBlock (o : CleanupOracle) :
    TraceOnly (do
      act Step.dirExistsQuery o.exists_ok
      if o.dir_exists then do
        act Step.dirIter o.iterdir_ok
        unlinkLoop o o.entries
        act Step.rmdirDone o.rmdir_ok
      else pure ()) := by
  refine traceOnly_bind (traceOnly_act _ _) ?_
  cases hd : o.dir_exists
  · simp only [Bool.false_eq_true, if_false]
    exact traceOnly_pure
  · simp only [if_true]
    exact traceOnly_bind (traceOnly_act _ _)
      (traceOnly_bind (traceOnly_unlinkLoop o o.entries) (traceOnly_act _ _))

/-- Helper: the result of an infallible field assignment. -/
theorem modifyPanel_def (f : PanelState → PanelState) (st : CleanSt) :
    modifyPanel f st = Except.ok ((), ⟨st.trace, f st.panel⟩) := rfl

/-- Helper: the display-close, directory-removal and field-reset tail of
the cleanup always succeeds, appends `resetFields` last and resets the
display and panel fields, whatever the oracle. -/
theorem cleanup_tail (o : CleanupOracle) (st : CleanSt) :
    ∃ tr, (tryPass (if st.panel.x_dpy = true then act Step.dpyClose o.dpy_close_ok
        else pure ()) >>= fun _ => do
      modifyPanel fun s => { s with x_dpy := false, x_child := false }
      tryPass (do
        act Step.dirExistsQuery o.exists_ok
        if o.dir_exists then do
          act Step.dirIter o.iterdir_ok
          unlinkLoop o o.entries
          act Step.rmdirDone o.rmdir_ok
        else pure ())
      act Step.resetFields true
      modifyPanel fun s => { s with
        xterm_started := false
        tmux_ready := false
        last_tmux_cwd := none
        pending_cd := none
        client_tty := none }) st =
      Except.ok ((), ⟨(st.trace ++ tr) ++ [Step.resetFields],
        { st.panel with
          x_dpy := false
          x_child := false
          xterm_started := false
          tmux_ready := false
          last_tmux_cwd := none
          pending_cd := none
          client_tty := none }⟩) := by
  rw [pyBind_def]
  cases hxd : st.panel.x_dpy
  · simp only [hxd, Bool.false_eq_true, if_false, reduceIte]
    rw [tryPass_pure]
    dsimp only
    rw [pyBind_def, modifyPanel_def]
    dsimp only
    obtain ⟨tr4, hdir⟩ := traceOnly_tryPass_ok (traceOnly_dirBlock o)
      ⟨st.trace, { st.panel with x_dpy := false, x_child := false }⟩
    rw [pyBind_def, hdir]
    dsimp only
    rw [pyBind_def, act_true]
    dsimp only
    rw [modifyPanel_def]
    exact ⟨tr4, rfl⟩
  · simp only [hxd, if_true, reduceIte]
    rw [tryPass_act]
    dsimp only
    rw [pyBind_def, modifyPanel_def]
    dsimp only
    obtain ⟨tr4, hdir⟩ := traceOnly_tryPass_ok (traceOnly_dirBlock o)
      ⟨st.trace ++ [Step.dpyClose], { st.panel with x_dpy := false, x_child := false }⟩
    rw [pyBind_def, hdir]
    dsimp only
    rw [pyBind_def, act_true]
    dsimp only
    rw [modifyPanel_def]
    refine ⟨[Step.dpyClose] ++ tr4, ?_⟩
    simp [List.append_assoc]

/-- C9: the shutdown cleanup never raises, for every prior subsystem
state and every combination of failing primitives: it always returns
successfully, the final field resets always execute (the `resetFields`
step is in the trace and the handle, readiness, cwd, pending and tty
fields are cleared), and the kill-server step is still attempted whenever
the tmux binary is present, regardless of earlier failures. -/
theorem c9_cleanup_never_raises (o : CleanupOracle) (e : Env) (st0 : CleanSt) :
    ∃ st', terminal_cleanup o e st0 = Except.ok ((), st') ∧
      st'.panel.proc_exists = false ∧
      st'.panel.x_dpy = false ∧ st'.panel.x_child = false ∧
      st'.panel.xterm_started = false ∧ st'.panel.tmux_ready = false ∧
      st'.panel.last_tmux_cwd = none ∧ st'.panel.pending_cd = none ∧
      st'.panel.client_tty = none ∧
      Step.resetFields ∈ st'.trace ∧
      (e.tmux_avail = true → Step.killServerRun ∈ st'.trace) := by
  unfold terminal_cleanup
  rw [pyBind_def]
  dsimp only [getPanel]
  cases hpe : st0.panel.proc_exists <;>
    cases he : e.tmux_avail <;>
      simp only [hpe, he, Bool.false_eq_true, if_false, if_true, reduceIte]
  · -- no process, no tmux
    rw [pyBind_def, pyPure_def]
    dsimp only
    rw [pyBind_def, pyPure_def]
    dsimp only
    rw [pyBind_def]
    dsimp only [getPanel]
    obtain ⟨tr, htail⟩ := cleanup_tail o st0
    refine ⟨_, htail, hpe, rfl, rfl, rfl, rfl, rfl, rfl, rfl, by simp,
      fun h => h.elim⟩
  · -- no process, tmux present
    rw [pyBind_def, pyPure_def]
    dsimp only
    rw [pyBind_def, tryPass_act]
    dsimp only
    rw [pyBind_def]
    dsimp only [getPanel]
    obtain ⟨tr, htail⟩ :=
      cleanup_tail o ⟨st0.trace ++ [Step.killServerRun], st0.panel⟩
    refine ⟨_, htail, hpe, rfl, rfl, rfl, rfl, rfl, rfl, rfl, by simp,
      fun _ => by simp⟩
  · -- process present, no tmux
    rw [pyBind_def, tryPass_act]
    dsimp only
    rw [pyBind_def]
    obtain ⟨tr2, hcatch⟩ := tryCatch_act_tryPass Step.procWait o.wait_ok
      Step.killpgKill o.killpg_kill_ok ⟨st0.trace ++ [Step.killpgTerm], st0.panel⟩
    rw [hcatch]
    dsimp only
    rw [pyBind_def, modifyPanel_def]
    dsimp only
    rw [pyBind_def, pyPure_def]
    dsimp only
    rw [pyBind_def]
    dsimp only [getPanel]
    obtain ⟨tr, htail⟩ := cleanup_tail o
      ⟨(st0.trace ++ [Step.killpgTerm]) ++ tr2,
        { st0.panel with proc_exists := false }⟩
    refine ⟨_, htail, rfl, rfl, rfl, rfl, rfl, rfl, rfl, rfl, by simp,
      fun h => h.elim⟩
  · -- process present, tmux present
    rw [pyBind_def, tryPass_act]
    dsimp only
    rw [pyBind_def]
    obtain ⟨tr2, hcatch⟩ := tryCatch_act_tryPass Step.procWait o.wait_ok
      Step.killpgKill o.killpg_kill_ok ⟨st0.trace ++ [Step.killpgTerm], st0.panel⟩
    rw [hcatch]
    dsimp only
    rw [pyBind_def, modifyPanel_def]
    dsimp only
    rw [pyBind_def, tryPass_act]
    dsimp only
    rw [pyBind_def]
    dsimp only [getPanel]
    obtain ⟨tr, htail⟩ := cleanup_tail o
      ⟨((st0.trace ++ [Step.killpgTerm]) ++ tr2) ++ [Step.killServerRun],
        { st0.panel with proc_exists := false }⟩
    refine ⟨_, htail, rfl, rfl, rfl, rfl, rfl, rfl, rfl, rfl, by simp,
      fun _ => by simp⟩

/-- C9 witness: the worst-case oracle (every primitive raising) against a
spawned state still returns successfully with the fields reset. -/
theorem c9_cleanup_never_raises_witness :
    ∃ st', terminal_cleanup oracleAllFail envAll ⟨[], stUnready⟩ =
        Except.ok ((), st') ∧
      st'.panel.proc_exists = false ∧
      st'.panel.x_dpy = false ∧ st'.panel.x_child = false ∧
      st'.panel.xterm_started = false ∧ st'.panel.tmux_ready = false ∧
      st'.panel.last_tmux_cwd = none ∧ st'.panel.pending_cd = none ∧
      st'.panel.client_tty = none ∧
      Step.resetFields ∈ st'.trace ∧
      (envAll.tmux_avail = true → Step.killServerRun ∈ st'.trace) :=
  c9_cleanup_never_raises oracleAllFail envAll ⟨[], stUnready⟩

end Zeropad
